import Mathlib

/-!
Shallow embedding of the meal-plan optimizer core of `src/app7.py`
(`generate_item_combos`, `top_candidates_by_target`, `plan_score`,
`target_pfc_grams`, `names_set`, `optimize_day_fixed_score_no_overlap`).

Conventions of the embedding:
* calories and prices are Python ints, embedded as `ℤ`; macro grams and
  scores are Python floats, embedded as exact rationals `ℚ` (the float
  literals `0.90`, `1.15`, ... are embedded as the exact rationals they
  denote in the source text);
* Python's stable `list.sort` / `sorted` is embedded as Mathlib's stable
  `List.insertionSort` (any stable sort computes the same list);
* Python set truthiness tests on name sets (`if names_b & names_set(cl)`)
  are embedded as emptiness tests on `Finset String` intersections;
* the two result variables `best, best_score` (with `float("inf")` as the
  initial score) are embedded as the pair `Option Plan × WithTop ℚ`, and
  the triple nested loop with `continue` statements is embedded as a left
  fold over the list of plans the loop body actually builds and scores
  (`continue` = filtering, loop nesting = `flatMap`, in source order).
-/

/-- One catalog item (one record of `df_slot.to_dict("records")` in
`generate_item_combos`): stable `name` used as the identity key, integer
`kcal` and `price_jpy`, rational macro/fiber grams. -/
structure Item where
  name : String
  kcal : ℤ
  price_jpy : ℤ
  protein_g : ℚ
  fat_g : ℚ
  carb_g : ℚ
  fiber_g : ℚ
deriving DecidableEq

/-- One combo dict as built in the body of `generate_item_combos`:
aggregate kcal/price/macros plus the member item list. -/
structure Combo where
  kcal : ℤ
  price : ℤ
  items : List Item
  protein : ℚ
  fat : ℚ
  carb : ℚ
  fiber : ℚ
deriving DecidableEq

/-- The combo dict built from one combination `comb` in
`generate_item_combos`: every field is the exact sum over the members. -/
def bundle_of (comb : List Item) : Combo :=
  { kcal := (comb.map Item.kcal).sum
    price := (comb.map Item.price_jpy).sum
    items := comb
    protein := (comb.map Item.protein_g).sum
    fat := (comb.map Item.fat_g).sum
    carb := (comb.map Item.carb_g).sum
    fiber := (comb.map Item.fiber_g).sum }

/-- `generate_item_combos(df_slot, budget, max_items)` from `src/app7.py`:
for `r` in `range(1, min(max_items, len(items)) + 1)`, every
`itertools.combinations(items, r)` draw (= every length-`r` sublist),
kept iff its aggregate price is `≤ budget`. -/
def generate_item_combos (items : List Item) (budget : ℤ) (max_items : ℕ) : List Combo :=
  (List.range' 1 (min max_items items.length)).flatMap fun r =>
    ((items.sublistsLen r).filter fun comb =>
        decide ((comb.map Item.price_jpy).sum ≤ budget)).map bundle_of

/-- The sort key used by `top_candidates_by_target` (and by the dinner
re-sort inside the optimizer): ascending `(abs(kcal - target), price)`,
compared lexicographically exactly as Python compares the key tuples. -/
def combo_le (target : ℤ) (a b : Combo) : Prop :=
  |a.kcal - target| < |b.kcal - target| ∨
    (|a.kcal - target| = |b.kcal - target| ∧ a.price ≤ b.price)

instance (t : ℤ) : DecidableRel (combo_le t) := fun a b => by
  unfold combo_le; infer_instance

instance (t : ℤ) : IsTotal Combo (combo_le t) where
  total a b := by
    unfold combo_le
    rcases lt_trichotomy (|a.kcal - t|) (|b.kcal - t|) with h | h | h
    · exact Or.inl (Or.inl h)
    · rcases le_total a.price b.price with hp | hp
      · exact Or.inl (Or.inr ⟨h, hp⟩)
      · exact Or.inr (Or.inr ⟨h.symm, hp⟩)
    · exact Or.inr (Or.inl h)

instance (t : ℤ) : IsTrans Combo (combo_le t) where
  trans a b c hab hbc := by
    unfold combo_le at *
    rcases hab with h1 | ⟨h1, hp1⟩ <;> rcases hbc with h2 | ⟨h2, hp2⟩
    · exact Or.inl (h1.trans h2)
    · exact Or.inl (h2 ▸ h1)
    · exact Or.inl (h1 ▸ h2)
    · exact Or.inr ⟨h1.trans h2, hp1.trans hp2⟩

/-- `top_candidates_by_target(combos, target_kcal, keep_top)`: stable sort
by `(abs(kcal - target), price)` and keep the first `keep_top`. -/
def top_candidates_by_target (combos : List Combo) (target : ℤ) (keep_top : ℕ) : List Combo :=
  (combos.insertionSort (combo_le target)).take keep_top

/-- A full-day plan dict as assembled inside the optimizer's inner loop. -/
structure Plan where
  breakfast : Combo
  lunch : Combo
  dinner : Combo
  kcal_total : ℤ
  protein_total : ℚ
  fat_total : ℚ
  carb_total : ℚ
  fiber_total : ℚ
  price_total : ℤ
deriving DecidableEq

/-- `FIBER_MIN_G = 18` from `src/app7.py`. -/
def FIBER_MIN_G : ℚ := 18

/-- `plan_score` from `src/app7.py`, with every keyword parameter explicit:
base kcal deviation cost plus banded macro penalties plus the fiber floor
penalty. -/
def plan_score (plan : Plan) (tg_kcal : ℤ) (tg_p tg_f tg_c : ℚ)
    (fiber_min w_kcal w_p w_f w_c w_fiber over_penalty : ℚ) : ℚ :=
  let p := plan.protein_total
  let f := plan.fat_total
  let c := plan.carb_total
  let fiber := plan.fiber_total
  let score0 := w_kcal * ((|plan.kcal_total - tg_kcal| : ℤ) : ℚ)
  let p_min := tg_p * (90/100)
  let p_max := tg_p * (115/100)
  let f_min := tg_f * (85/100)
  let f_max := tg_f * (115/100)
  let c_min := tg_c * (85/100)
  let c_max := tg_c * (115/100)
  let score1 :=
    if p < p_min then score0 + w_p * (p_min - p)
    else if p_max < p then score0 + w_p * over_penalty * (p - p_max)
    else score0
  let score2 :=
    if f < f_min then score1 + w_f * (f_min - f)
    else if f_max < f then score1 + w_f * over_penalty * (f - f_max)
    else score1
  let score3 :=
    if c < c_min then score2 + w_c * (c_min - c)
    else if c_max < c then score2 + w_c * over_penalty * (c - c_max)
    else score2
  if fiber < fiber_min then score3 + w_fiber * (fiber_min - fiber) else score3

/-- `plan_score` applied with its default keyword arguments
(`fiber_min=FIBER_MIN_G, w_kcal=1.0, w_p=0.8, w_f=0.6, w_c=0.4,
w_fiber=0.5, over_penalty=0.5`), which is how the optimizer calls it. -/
def plan_score_default (plan : Plan) (tg_kcal : ℤ) (tg_p tg_f tg_c : ℚ) : ℚ :=
  plan_score plan tg_kcal tg_p tg_f tg_c FIBER_MIN_G 1 (8/10) (6/10) (4/10) (5/10) (5/10)

/-- `target_pfc_grams(intake_kcal, weight_kg, p_per_kg, f_ratio)` from
`src/app7.py` (the optimizer calls it with the defaults `p_per_kg=1.6`,
`f_ratio=0.25`). -/
def target_pfc_grams (intake_kcal weight_kg p_per_kg f_ratio : ℚ) : ℚ × ℚ × ℚ :=
  let p_g := weight_kg * p_per_kg
  let f_g := intake_kcal * f_ratio / 9
  let c_kcal := intake_kcal - (p_g * 4 + f_g * 9)
  let c_g := max 0 (c_kcal / 4)
  (p_g, f_g, c_g)

/-- `names_set(combo)`: the set of member item names. -/
def combo_names (c : Combo) : Finset String :=
  (c.items.map Item.name).toFinset

/-- The plan dict assembled in the optimizer's inner loop from a
breakfast/lunch/dinner candidate triple. -/
def mkPlan (cb cl cd : Combo) : Plan :=
  { breakfast := cb
    lunch := cl
    dinner := cd
    kcal_total := cb.kcal + cl.kcal + cd.kcal
    protein_total := cb.protein + cl.protein + cd.protein
    fat_total := cb.fat + cl.fat + cd.fat
    carb_total := cb.carb + cl.carb + cd.carb
    fiber_total := cb.fiber + cl.fiber + cd.fiber
    price_total := cb.price + cl.price + cd.price }

/-- The per-slot calorie targets of the optimizer:
`t_b = int(intake*0.20)`, `t_l = int(intake*0.40)`,
`t_d = intake - t_b - t_l` (exact-rational reading of the float
multiplications, which agree with `n*20/100` and `n*40/100` on `ℕ`). -/
def tri_targets (intake : ℕ) : ℕ × ℕ × ℕ :=
  let t_b := intake * 20 / 100
  let t_l := intake * 40 / 100
  (t_b, t_l, intake - t_b - t_l)

/-- The sequence of plan dicts the optimizer's triple loop actually builds
and scores, in loop order: lunches failing the name-overlap or pair-price
test are `continue`d past, the dinner pool is the re-sorted 60-prefix of
`cands_d` against the pair's residual calories, and dinners failing the
overlap or total-price test are `continue`d past. -/
def examined (cands_b cands_l cands_d : List Combo) (intake budget : ℤ) : List Plan :=
  cands_b.flatMap fun cb =>
    ((cands_l.filter fun cl =>
          decide (combo_names cb ∩ combo_names cl = ∅) &&
            decide (cb.price + cl.price ≤ budget)).flatMap
      fun cl =>
        ((top_candidates_by_target cands_d (intake - (cb.kcal + cl.kcal)) 60).filter fun cd =>
              decide ((combo_names cb ∪ combo_names cl) ∩ combo_names cd = ∅) &&
                decide (cb.price + cl.price + cd.price ≤ budget)).map
          fun cd => mkPlan cb cl cd)

/-- The score the optimizer assigns to a plan:
`plan_score(plan, intake, tg_p, tg_f, tg_c)` with the macro targets
derived by `target_pfc_grams(intake, weight_kg)`. -/
def score_of (intake : ℕ) (weight_kg : ℚ) (p : Plan) : ℚ :=
  let tg := target_pfc_grams (intake : ℚ) weight_kg (8/5) (1/4)
  plan_score_default p (intake : ℤ) tg.1 tg.2.1 tg.2.2

/-- `best["price_total"] if best else 1e18`. -/
def sentinel_price : Option Plan → ℤ
  | some b => b.price_total
  | none => 10 ^ 18

/-- One update of the `(best, best_score)` pair:
`if (score < best_score) or (score == best_score and price_total < ...)`. -/
def opt_step (intake : ℕ) (weight_kg : ℚ) (st : Option Plan × WithTop ℚ) (p : Plan) :
    Option Plan × WithTop ℚ :=
  let score := score_of intake weight_kg p
  if (score : WithTop ℚ) < st.2 ∨
      ((score : WithTop ℚ) = st.2 ∧ p.price_total < sentinel_price st.1) then
    (some p, (score : WithTop ℚ))
  else st

/-- The plan sequence examined by
`optimize_day_fixed_score_no_overlap`: candidate lists are the
`keep_top=60` rankings of each slot's combos against the 20/40/40 slot
targets. -/
def opt_examined (combos_b combos_l combos_d : List Combo) (intake : ℕ) (budget : ℤ) :
    List Plan :=
  examined (top_candidates_by_target combos_b ((tri_targets intake).1 : ℤ) 60)
    (top_candidates_by_target combos_l ((tri_targets intake).2.1 : ℤ) 60)
    (top_candidates_by_target combos_d ((tri_targets intake).2.2 : ℤ) 60)
    (intake : ℤ) budget

/-- `optimize_day_fixed_score_no_overlap(combos_b, combos_l, combos_d,
intake, budget, weight_kg)` from `src/app7.py`: fold the best-plan update
over the examined plans, starting from `(None, float("inf"))`. -/
def optimize_day_fixed_score_no_overlap (combos_b combos_l combos_d : List Combo)
    (intake : ℕ) (budget : ℤ) (weight_kg : ℚ) : Option Plan × WithTop ℚ :=
  (opt_examined combos_b combos_l combos_d intake budget).foldl
    (opt_step intake weight_kg) (none, (⊤ : WithTop ℚ))

/-! ## Spec-side band-penalty form of the scorer, and helper lemmas -/

/-- The tolerance-band penalty of one macro as the spec states it: a
`w * (target*lo - actual)` undershoot penalty below the band, a
`w * over * (actual - target*hi)` discounted overshoot penalty above it,
zero inside. -/
def band_penalty (w lo hi target actual over : ℚ) : ℚ :=
  if actual < target * lo then w * (target * lo - actual)
  else if target * hi < actual then w * over * (actual - target * hi)
  else 0

set_option maxHeartbeats 1000000 in
lemma plan_score_eq_bands (plan : Plan) (tg_kcal : ℤ)
    (tg_p tg_f tg_c fiber_min w_kcal w_p w_f w_c w_fiber over_penalty : ℚ) :
    plan_score plan tg_kcal tg_p tg_f tg_c fiber_min w_kcal w_p w_f w_c w_fiber over_penalty =
      w_kcal * ((|plan.kcal_total - tg_kcal| : ℤ) : ℚ)
        + band_penalty w_p (90/100) (115/100) tg_p plan.protein_total over_penalty
        + band_penalty w_f (85/100) (115/100) tg_f plan.fat_total over_penalty
        + band_penalty w_c (85/100) (115/100) tg_c plan.carb_total over_penalty
        + (if plan.fiber_total < fiber_min then w_fiber * (fiber_min - plan.fiber_total)
           else 0) := by
  unfold plan_score band_penalty
  dsimp only
  split_ifs <;> ring

lemma band_penalty_nonneg (w lo hi target actual over : ℚ) (hw : 0 ≤ w) (hov : 0 ≤ over) :
    0 ≤ band_penalty w lo hi target actual over := by
  unfold band_penalty
  split_ifs with h1 h2
  · exact mul_nonneg hw (by linarith)
  · exact mul_nonneg (mul_nonneg hw hov) (by linarith)
  · exact le_refl 0

lemma top_candidates_subset {combos : List Combo} {t : ℤ} {k : ℕ} {c : Combo}
    (hc : c ∈ top_candidates_by_target combos t k) : c ∈ combos :=
  (List.mem_insertionSort _).1 (List.mem_of_mem_take hc)

/-! ## Concrete fixtures used by witness theorems -/

def comboX : Combo := ⟨140, 100, [⟨"X", 140, 100, 0, 0, 0, 0⟩], 0, 0, 0, 0⟩

def comboY : Combo := ⟨280, 100, [⟨"Y", 280, 100, 0, 0, 0, 0⟩], 0, 0, 0, 0⟩

def comboZ : Combo := ⟨280, 100, [⟨"Z", 280, 100, 0, 0, 0, 0⟩], 0, 0, 0, 0⟩

def samplePlan : Plan := ⟨comboX, comboY, comboZ, 700, 0, 0, 0, 0, 300⟩

def pricyItem : Item := ⟨"P", 100, 400, 0, 0, 0, 0⟩

/-- C4: `plan_score` equals the kcal-deviation base cost plus the three
banded macro penalties (protein band 0.90–1.15, fat and carb bands
0.85–1.15, overshoot discounted by `over_penalty`) plus the fiber floor
penalty applied exactly when `fiber_total < fiber_min`, with no upper
fiber penalty; and with the default non-negative weights and non-negative
targets and totals the score is non-negative. -/
theorem claim_C4 (plan : Plan) (tg_kcal : ℤ)
    (tg_p tg_f tg_c fiber_min w_kcal w_p w_f w_c w_fiber over_penalty : ℚ)
    (_htp : 0 ≤ tg_p) (_htf : 0 ≤ tg_f) (_htc : 0 ≤ tg_c)
    (_hp : 0 ≤ plan.protein_total) (_hf : 0 ≤ plan.fat_total)
    (_hc : 0 ≤ plan.carb_total) (_hfib : 0 ≤ plan.fiber_total) :
    plan_score plan tg_kcal tg_p tg_f tg_c fiber_min w_kcal w_p w_f w_c w_fiber over_penalty =
      w_kcal * ((|plan.kcal_total - tg_kcal| : ℤ) : ℚ)
        + band_penalty w_p (90/100) (115/100) tg_p plan.protein_total over_penalty
        + band_penalty w_f (85/100) (115/100) tg_f plan.fat_total over_penalty
        + band_penalty w_c (85/100) (115/100) tg_c plan.carb_total over_penalty
        + (if plan.fiber_total < fiber_min then w_fiber * (fiber_min - plan.fiber_total)
           else 0)
      ∧ 0 ≤ plan_score_default plan tg_kcal tg_p tg_f tg_c := by
  constructor
  · exact plan_score_eq_bands plan tg_kcal tg_p tg_f tg_c fiber_min w_kcal w_p w_f w_c
      w_fiber over_penalty
  · rw [plan_score_default, plan_score_eq_bands]
    have h0 : (0:ℚ) ≤ 1 * ((|plan.kcal_total - tg_kcal| : ℤ) : ℚ) := by positivity
    have h1 := band_penalty_nonneg (8/10) (90/100) (115/100) tg_p plan.protein_total (5/10)
      (by norm_num) (by norm_num)
    have h2 := band_penalty_nonneg (6/10) (85/100) (115/100) tg_f plan.fat_total (5/10)
      (by norm_num) (by norm_num)
    have h3 := band_penalty_nonneg (4/10) (85/100) (115/100) tg_c plan.carb_total (5/10)
      (by norm_num) (by norm_num)
    have h4 : (0:ℚ) ≤
        if plan.fiber_total < FIBER_MIN_G then (5/10) * (FIBER_MIN_G - plan.fiber_total)
        else 0 := by
      split_ifs with h
      · have hd : (0:ℚ) ≤ FIBER_MIN_G - plan.fiber_total := by linarith
        exact mul_nonneg (by norm_num) hd
      · exact le_refl 0
    linarith

theorem claim_C4_witness :
    (0:ℚ) ≤ samplePlan.protein_total ∧
      (plan_score samplePlan 700 0 0 0 FIBER_MIN_G 1 (8/10) (6/10) (4/10) (5/10) (5/10) =
          1 * ((|samplePlan.kcal_total - 700| : ℤ) : ℚ)
            + band_penalty (8/10) (90/100) (115/100) 0 samplePlan.protein_total (5/10)
            + band_penalty (6/10) (85/100) (115/100) 0 samplePlan.fat_total (5/10)
            + band_penalty (4/10) (85/100) (115/100) 0 samplePlan.carb_total (5/10)
            + (if samplePlan.fiber_total < FIBER_MIN_G then
                (5/10) * (FIBER_MIN_G - samplePlan.fiber_total) else 0)
        ∧ 0 ≤ plan_score_default samplePlan 700 0 0 0) :=
  ⟨by decide,
    claim_C4 samplePlan 700 0 0 0 FIBER_MIN_G 1 (8/10) (6/10) (4/10) (5/10) (5/10)
      (by decide) (by decide) (by decide) (by decide) (by decide) (by decide) (by decide)⟩

/-- C5: `top_candidates_by_target` returns at most `keep_top` bundles,
sorted ascending by the lexicographic key `(abs(kcal - target), price)`,
and every returned bundle comes from the input list. -/
theorem claim_C5 (combos : List Combo) (target : ℤ) (keep_top : ℕ) :
    (top_candidates_by_target combos target keep_top).length ≤ keep_top ∧
      List.Sorted (combo_le target) (top_candidates_by_target combos target keep_top) ∧
      ∀ c ∈ top_candidates_by_target combos target keep_top, c ∈ combos := by
  refine ⟨List.length_take_le _ _, ?_, fun c hc => top_candidates_subset hc⟩
  exact List.Pairwise.sublist (List.take_sublist _ _) (List.sorted_insertionSort _ _)

theorem claim_C5_witness : comboX ∈ ([comboX] : List Combo) :=
  (claim_C5 [comboX] 5 60).2.2 comboX (List.mem_singleton_self comboX)

lemma mem_generate_item_combos {items : List Item} {budget : ℤ} {max_items : ℕ} {c : Combo} :
    c ∈ generate_item_combos items budget max_items ↔
      ∃ comb : List Item, comb.Sublist items ∧ 1 ≤ comb.length ∧
        comb.length ≤ min max_items items.length ∧
        (comb.map Item.price_jpy).sum ≤ budget ∧ c = bundle_of comb := by
  simp only [generate_item_combos, List.mem_flatMap, List.mem_filter, List.mem_map,
    List.mem_range', List.mem_sublistsLen, decide_eq_true_eq]
  constructor
  · rintro ⟨r, ⟨i, hi, rfl⟩, comb, ⟨⟨hsub, hlen⟩, hprice⟩, rfl⟩
    exact ⟨comb, hsub, by omega, by omega, hprice, rfl⟩
  · rintro ⟨comb, hsub, h1, h2, hpr, rfl⟩
    exact ⟨comb.length, ⟨comb.length - 1, by omega, by omega⟩, comb, ⟨⟨hsub, rfl⟩, hpr⟩, rfl⟩

/-- C3: `generate_item_combos` returns exactly the without-replacement
combinations of size `1 .. min(max_items, |items|)` whose aggregate price
is `≤ budget` (`≤`, not `<`); every returned bundle's kcal/price/macro
totals are the exact sums over its members; and when no item fits the
budget the result is empty. -/
theorem claim_C3 (items : List Item) (budget : ℤ) (max_items : ℕ) :
    (∀ c, c ∈ generate_item_combos items budget max_items ↔
        ∃ comb : List Item, comb.Sublist items ∧ 1 ≤ comb.length ∧
          comb.length ≤ min max_items items.length ∧
          (comb.map Item.price_jpy).sum ≤ budget ∧ c = bundle_of comb) ∧
      (∀ c ∈ generate_item_combos items budget max_items,
        c.price ≤ budget ∧
          c.kcal = (c.items.map Item.kcal).sum ∧
          c.price = (c.items.map Item.price_jpy).sum ∧
          c.protein = (c.items.map Item.protein_g).sum ∧
          c.fat = (c.items.map Item.fat_g).sum ∧
          c.carb = (c.items.map Item.carb_g).sum ∧
          c.fiber = (c.items.map Item.fiber_g).sum) ∧
      ((∀ it ∈ items, 0 ≤ it.price_jpy) → (∀ it ∈ items, budget < it.price_jpy) →
        generate_item_combos items budget max_items = []) := by
  refine ⟨fun c => mem_generate_item_combos, ?_, ?_⟩
  · intro c hc
    obtain ⟨comb, _, _, _, hpr, rfl⟩ := mem_generate_item_combos.1 hc
    exact ⟨hpr, rfl, rfl, rfl, rfl, rfl, rfl⟩
  · intro hpos hover
    rw [List.eq_nil_iff_forall_not_mem]
    intro c hc
    obtain ⟨comb, hsub, h1, _, hpr, _⟩ := mem_generate_item_combos.1 hc
    obtain ⟨x, hx⟩ := List.exists_mem_of_length_pos (show 0 < comb.length by omega)
    have hxle : x.price_jpy ≤ (comb.map Item.price_jpy).sum := by
      refine List.single_le_sum (fun y hy => ?_) _ (List.mem_map_of_mem Item.price_jpy hx)
      obtain ⟨z, hz, rfl⟩ := List.mem_map.1 hy
      exact hpos z (hsub.subset hz)
    have := hover x (hsub.subset hx)
    omega

theorem claim_C3_witness :
    (∀ it ∈ [pricyItem], (0:ℤ) ≤ it.price_jpy) ∧
      (∀ it ∈ [pricyItem], (300:ℤ) < it.price_jpy) ∧
      generate_item_combos [pricyItem] 300 3 = [] :=
  ⟨by decide, by decide, (claim_C3 [pricyItem] 300 3).2.2 (by decide) (by decide)⟩

/-- C9: the optimizer's slot targets are
`t_b = floor(intake*0.20)`, `t_l = floor(intake*0.40)`,
`t_d = intake - t_b - t_l`, and the three targets always sum exactly to
`intake`, the dinner slot absorbing the rounding remainder. -/
theorem claim_C9 (intake : ℕ) :
    (tri_targets intake).1 = ⌊(intake : ℚ) * (20/100)⌋₊ ∧
      (tri_targets intake).2.1 = ⌊(intake : ℚ) * (40/100)⌋₊ ∧
      (tri_targets intake).2.2 = intake - (tri_targets intake).1 - (tri_targets intake).2.1 ∧
      (tri_targets intake).1 + (tri_targets intake).2.1 + (tri_targets intake).2.2
        = intake := by
  refine ⟨?_, ?_, rfl, ?_⟩
  · have h : (intake : ℚ) * (20/100) = ((intake * 20 : ℕ) : ℚ) / ((100 : ℕ) : ℚ) := by
      push_cast; ring
    rw [h, Nat.floor_div_nat, Nat.floor_natCast]; rfl
  · have h : (intake : ℚ) * (40/100) = ((intake * 40 : ℕ) : ℚ) / ((100 : ℕ) : ℚ) := by
      push_cast; ring
    rw [h, Nat.floor_div_nat, Nat.floor_natCast]; rfl
  · show intake * 20 / 100 + intake * 40 / 100
        + (intake - intake * 20 / 100 - intake * 40 / 100) = intake
    omega

lemma band_penalty_at_lo (w lo hi t over : ℚ) (ht : 0 ≤ t) (hlohi : lo ≤ hi) :
    band_penalty w lo hi t (t * lo) over = 0 := by
  unfold band_penalty
  have h1 : ¬(t * lo < t * lo) := lt_irrefl _
  have h2 : ¬(t * hi < t * lo) := not_lt.2 (mul_le_mul_of_nonneg_left hlohi ht)
  simp [h1, h2]

lemma band_penalty_at_hi (w lo hi t over : ℚ) (ht : 0 ≤ t) (hlohi : lo ≤ hi) :
    band_penalty w lo hi t (t * hi) over = 0 := by
  unfold band_penalty
  have h1 : ¬(t * hi < t * lo) := not_lt.2 (mul_le_mul_of_nonneg_left hlohi ht)
  have h2 : ¬(t * hi < t * hi) := lt_irrefl _
  simp [h1, h2]

lemma band_penalty_at_target (w lo hi t over : ℚ) (ht : 0 ≤ t) (hlo : lo ≤ 1) (hhi : 1 ≤ hi) :
    band_penalty w lo hi t t over = 0 := by
  unfold band_penalty
  have h1 : ¬(t < t * lo) := by
    have := mul_le_mul_of_nonneg_left hlo ht
    rw [mul_one] at this
    exact not_lt.2 this
  have h2 : ¬(t * hi < t) := by
    have := mul_le_mul_of_nonneg_left hhi ht
    rw [mul_one] at this
    exact not_lt.2 this
  simp [h1, h2]

def boundaryPlan : Plan := ⟨comboX, comboY, comboZ, 700, 10 * (90/100), 0, 0, 0, 300⟩

/-- C6: with the macro and fiber totals held fixed, the default-weight
`plan_score` is monotone in the kcal deviation `abs(kcal_total - tg_kcal)`;
and a macro total lying exactly on its band boundary (`target*lo` or
`target*hi`) contributes zero penalty: the score is the same as with that
macro exactly at its target (which lies strictly inside the band). -/
theorem claim_C6 :
    (∀ (P1 P2 : Plan) (tg_kcal : ℤ) (tg_p tg_f tg_c : ℚ),
        P1.protein_total = P2.protein_total → P1.fat_total = P2.fat_total →
        P1.carb_total = P2.carb_total → P1.fiber_total = P2.fiber_total →
        |P1.kcal_total - tg_kcal| ≤ |P2.kcal_total - tg_kcal| →
        plan_score_default P1 tg_kcal tg_p tg_f tg_c ≤
          plan_score_default P2 tg_kcal tg_p tg_f tg_c) ∧
      (∀ (P : Plan) (tg_kcal : ℤ) (tg_p tg_f tg_c : ℚ), 0 ≤ tg_p →
        (P.protein_total = tg_p * (90/100) ∨ P.protein_total = tg_p * (115/100)) →
        plan_score_default P tg_kcal tg_p tg_f tg_c =
          plan_score_default { P with protein_total := tg_p } tg_kcal tg_p tg_f tg_c) ∧
      (∀ (P : Plan) (tg_kcal : ℤ) (tg_p tg_f tg_c : ℚ), 0 ≤ tg_f →
        (P.fat_total = tg_f * (85/100) ∨ P.fat_total = tg_f * (115/100)) →
        plan_score_default P tg_kcal tg_p tg_f tg_c =
          plan_score_default { P with fat_total := tg_f } tg_kcal tg_p tg_f tg_c) ∧
      (∀ (P : Plan) (tg_kcal : ℤ) (tg_p tg_f tg_c : ℚ), 0 ≤ tg_c →
        (P.carb_total = tg_c * (85/100) ∨ P.carb_total = tg_c * (115/100)) →
        plan_score_default P tg_kcal tg_p tg_f tg_c =
          plan_score_default { P with carb_total := tg_c } tg_kcal tg_p tg_f tg_c) := by
  refine ⟨?_, ?_, ?_, ?_⟩
  · intro P1 P2 tg_kcal tg_p tg_f tg_c hp hf hc hfib hk
    rw [plan_score_default, plan_score_default, plan_score_eq_bands, plan_score_eq_bands,
      hp, hf, hc, hfib]
    have hcast : ((|P1.kcal_total - tg_kcal| : ℤ) : ℚ) ≤ ((|P2.kcal_total - tg_kcal| : ℤ) : ℚ) :=
      Int.cast_le.mpr hk
    linarith
  · intro P tg_kcal tg_p tg_f tg_c htp hb
    rw [plan_score_default, plan_score_default, plan_score_eq_bands, plan_score_eq_bands]
    dsimp only
    have hz : band_penalty (8/10) (90/100) (115/100) tg_p P.protein_total (5/10) = 0 := by
      rcases hb with hb | hb <;> rw [hb]
      · exact band_penalty_at_lo _ _ _ _ _ htp (by norm_num)
      · exact band_penalty_at_hi _ _ _ _ _ htp (by norm_num)
    have ht : band_penalty (8/10) (90/100) (115/100) tg_p tg_p (5/10) = 0 :=
      band_penalty_at_target _ _ _ _ _ htp (by norm_num) (by norm_num)
    rw [hz, ht]
  · intro P tg_kcal tg_p tg_f tg_c htf hb
    rw [plan_score_default, plan_score_default, plan_score_eq_bands, plan_score_eq_bands]
    dsimp only
    have hz : band_penalty (6/10) (85/100) (115/100) tg_f P.fat_total (5/10) = 0 := by
      rcases hb with hb | hb <;> rw [hb]
      · exact band_penalty_at_lo _ _ _ _ _ htf (by norm_num)
      · exact band_penalty_at_hi _ _ _ _ _ htf (by norm_num)
    have ht : band_penalty (6/10) (85/100) (115/100) tg_f tg_f (5/10) = 0 :=
      band_penalty_at_target _ _ _ _ _ htf (by norm_num) (by norm_num)
    rw [hz, ht]
  · intro P tg_kcal tg_p tg_f tg_c htc hb
    rw [plan_score_default, plan_score_default, plan_score_eq_bands, plan_score_eq_bands]
    dsimp only
    have hz : band_penalty (4/10) (85/100) (115/100) tg_c P.carb_total (5/10) = 0 := by
      rcases hb with hb | hb <;> rw [hb]
      · exact band_penalty_at_lo _ _ _ _ _ htc (by norm_num)
      · exact band_penalty_at_hi _ _ _ _ _ htc (by norm_num)
    have ht : band_penalty (4/10) (85/100) (115/100) tg_c tg_c (5/10) = 0 :=
      band_penalty_at_target _ _ _ _ _ htc (by norm_num) (by norm_num)
    rw [hz, ht]

theorem claim_C6_witness :
    plan_score_default samplePlan 700 1 1 1 ≤ plan_score_default samplePlan 700 1 1 1 ∧
      plan_score_default boundaryPlan 700 10 1 1 =
        plan_score_default { boundaryPlan with protein_total := 10 } 700 10 1 1 :=
  ⟨claim_C6.1 samplePlan samplePlan 700 1 1 1 rfl rfl rfl rfl (le_refl _),
    claim_C6.2.1 boundaryPlan 700 10 1 1 (by decide) (Or.inl rfl)⟩

/-! ## The optimizer's best-plan fold -/

/-- `p` is at least as good as `q` under the optimizer's selection rule:
strictly better score, or equal score and no worse total price. -/
def Better (intake : ℕ) (weight_kg : ℚ) (p q : Plan) : Prop :=
  score_of intake weight_kg p < score_of intake weight_kg q ∨
    (score_of intake weight_kg p = score_of intake weight_kg q ∧
      p.price_total ≤ q.price_total)

lemma better_refl (i : ℕ) (w : ℚ) (p : Plan) : Better i w p p := Or.inr ⟨rfl, le_refl _⟩

lemma better_trans {i : ℕ} {w : ℚ} {p q r : Plan} (h1 : Better i w p q)
    (h2 : Better i w q r) : Better i w p r := by
  rcases h1 with h1 | ⟨h1, hp1⟩ <;> rcases h2 with h2 | ⟨h2, hp2⟩
  · exact Or.inl (h1.trans h2)
  · exact Or.inl (h2 ▸ h1)
  · exact Or.inl (h1 ▸ h2)
  · exact Or.inr ⟨h1.trans h2, hp1.trans hp2⟩

lemma opt_step_some (i : ℕ) (w : ℚ) (b x : Plan) :
    opt_step i w (some b, (score_of i w b : WithTop ℚ)) x =
      if score_of i w x < score_of i w b ∨
          (score_of i w x = score_of i w b ∧ x.price_total < b.price_total) then
        (some x, (score_of i w x : WithTop ℚ))
      else (some b, (score_of i w b : WithTop ℚ)) := by
  unfold opt_step sentinel_price
  dsimp only
  simp only [WithTop.coe_lt_coe, WithTop.coe_eq_coe]

lemma foldl_opt_from_some (i : ℕ) (w : ℚ) :
    ∀ (l : List Plan) (b : Plan),
      ∃ b', l.foldl (opt_step i w) (some b, (score_of i w b : WithTop ℚ)) =
            (some b', (score_of i w b' : WithTop ℚ)) ∧
        (b' = b ∨ b' ∈ l) ∧ Better i w b' b ∧ ∀ q ∈ l, Better i w b' q := by
  intro l
  induction l with
  | nil =>
    intro b
    exact ⟨b, rfl, Or.inl rfl, better_refl i w b, by simp⟩
  | cons x xs ih =>
    intro b
    rw [List.foldl_cons, opt_step_some]
    by_cases hcond : score_of i w x < score_of i w b ∨
        (score_of i w x = score_of i w b ∧ x.price_total < b.price_total)
    · rw [if_pos hcond]
      obtain ⟨b', heq, hmem, hbx, hall⟩ := ih x
      have hxb : Better i w x b := by
        rcases hcond with h | ⟨h1, h2⟩
        · exact Or.inl h
        · exact Or.inr ⟨h1, le_of_lt h2⟩
      refine ⟨b', heq, ?_, better_trans hbx hxb, fun q hq => ?_⟩
      · rcases hmem with rfl | h
        · exact Or.inr (List.mem_cons_self b' xs)
        · exact Or.inr (List.mem_cons_of_mem x h)
      · rcases List.mem_cons.1 hq with rfl | hq'
        · exact hbx
        · exact hall q hq'
    · rw [if_neg hcond]
      obtain ⟨b', heq, hmem, hbb, hall⟩ := ih b
      push_neg at hcond
      obtain ⟨hnlt, himp⟩ := hcond
      have hbx : Better i w b x := by
        rcases lt_or_eq_of_le hnlt with h | h
        · exact Or.inl h
        · exact Or.inr ⟨h, himp h.symm⟩
      refine ⟨b', heq, hmem.imp id (List.mem_cons_of_mem x), hbb, fun q hq => ?_⟩
      rcases List.mem_cons.1 hq with rfl | hq'
      · exact better_trans hbb hbx
      · exact hall q hq'

lemma optimize_cases (combos_b combos_l combos_d : List Combo) (intake : ℕ) (budget : ℤ)
    (weight_kg : ℚ) :
    (optimize_day_fixed_score_no_overlap combos_b combos_l combos_d intake budget weight_kg
          = (none, ⊤) ∧
        opt_examined combos_b combos_l combos_d intake budget = []) ∨
      ∃ b, optimize_day_fixed_score_no_overlap combos_b combos_l combos_d intake budget
            weight_kg = (some b, (score_of intake weight_kg b : WithTop ℚ)) ∧
        b ∈ opt_examined combos_b combos_l combos_d intake budget ∧
        ∀ q ∈ opt_examined combos_b combos_l combos_d intake budget,
          Better intake weight_kg b q := by
  unfold optimize_day_fixed_score_no_overlap
  cases hl : opt_examined combos_b combos_l combos_d intake budget with
  | nil => exact Or.inl ⟨rfl, rfl⟩
  | cons x xs =>
    right
    have hstep : opt_step intake weight_kg (none, (⊤ : WithTop ℚ)) x =
        (some x, (score_of intake weight_kg x : WithTop ℚ)) := by
      unfold opt_step
      dsimp only
      rw [if_pos (Or.inl (WithTop.coe_lt_top _))]
    rw [List.foldl_cons, hstep]
    obtain ⟨b, heq, hmem, hbx, hall⟩ := foldl_opt_from_some intake weight_kg xs x
    refine ⟨b, heq, ?_, fun q hq => ?_⟩
    · rcases hmem with rfl | h
      · exact List.mem_cons_self b xs
      · exact List.mem_cons_of_mem x h
    · rcases List.mem_cons.1 hq with rfl | hq'
      · exact hbx
      · exact hall q hq'

lemma mem_examined_iff {cands_b cands_l cands_d : List Combo} {intake budget : ℤ}
    {p : Plan} :
    p ∈ examined cands_b cands_l cands_d intake budget ↔
      ∃ cb ∈ cands_b, ∃ cl ∈ cands_l,
        ∃ cd ∈ top_candidates_by_target cands_d (intake - (cb.kcal + cl.kcal)) 60,
          combo_names cb ∩ combo_names cl = ∅ ∧ cb.price + cl.price ≤ budget ∧
          (combo_names cb ∪ combo_names cl) ∩ combo_names cd = ∅ ∧
          cb.price + cl.price + cd.price ≤ budget ∧ p = mkPlan cb cl cd := by
  simp only [examined, List.mem_flatMap, List.mem_filter, List.mem_map, Bool.and_eq_true,
    decide_eq_true_eq]
  constructor
  · rintro ⟨cb, hcb, cl, ⟨hcl, h1, h2⟩, cd, ⟨hcd, h3, h4⟩, rfl⟩
    exact ⟨cb, hcb, cl, hcl, cd, hcd, h1, h2, h3, h4, rfl⟩
  · rintro ⟨cb, hcb, cl, hcl, cd, hcd, h1, h2, h3, h4, rfl⟩
    exact ⟨cb, hcb, cl, ⟨hcl, h1, h2⟩, cd, ⟨hcd, h3, h4⟩, rfl⟩

/-- C1: every plan returned by the tri-slot optimizer has pairwise
name-disjoint breakfast/lunch/dinner bundles and a total price within the
daily budget (equality with the budget allowed). -/
theorem claim_C1 (combos_b combos_l combos_d : List Combo) (intake : ℕ) (budget : ℤ)
    (weight_kg : ℚ) (plan : Plan)
    (h : (optimize_day_fixed_score_no_overlap combos_b combos_l combos_d intake budget
        weight_kg).1 = some plan) :
    Disjoint (combo_names plan.breakfast) (combo_names plan.lunch) ∧
      Disjoint (combo_names plan.breakfast) (combo_names plan.dinner) ∧
      Disjoint (combo_names plan.lunch) (combo_names plan.dinner) ∧
      plan.price_total ≤ budget := by
  rcases optimize_cases combos_b combos_l combos_d intake budget weight_kg with
    ⟨heq, _⟩ | ⟨b, heq, hmem, _⟩
  · rw [heq] at h
    exact absurd h (by simp)
  · rw [heq] at h
    obtain rfl : b = plan := Option.some.inj h
    obtain ⟨cb, hcb, cl, hcl, cd, hcd, h1, h2, h3, h4, rfl⟩ := mem_examined_iff.1 hmem
    have h3' : combo_names cb ∩ combo_names cd ∪ combo_names cl ∩ combo_names cd = ∅ := by
      rw [← Finset.union_inter_distrib_right]
      exact h3
    exact ⟨Finset.disjoint_iff_inter_eq_empty.2 h1,
      Finset.disjoint_iff_inter_eq_empty.2 (Finset.union_eq_empty.1 h3').1,
      Finset.disjoint_iff_inter_eq_empty.2 (Finset.union_eq_empty.1 h3').2, h4⟩

theorem claim_C1_witness :
    Disjoint (combo_names (mkPlan comboX comboY comboZ).breakfast)
        (combo_names (mkPlan comboX comboY comboZ).lunch) ∧
      Disjoint (combo_names (mkPlan comboX comboY comboZ).breakfast)
        (combo_names (mkPlan comboX comboY comboZ).dinner) ∧
      Disjoint (combo_names (mkPlan comboX comboY comboZ).lunch)
        (combo_names (mkPlan comboX comboY comboZ).dinner) ∧
      (mkPlan comboX comboY comboZ).price_total ≤ 500 :=
  claim_C1 [comboX] [comboY] [comboZ] 700 500 0 (mkPlan comboX comboY comboZ) rfl

/-- C2: when the optimizer returns a plan, that plan's score is minimal
over every feasible triple it examined (breakfast and lunch from the
keep-top-60 rankings, dinner from the residual-calorie-sorted 60-prefix,
feasibility = pairwise name-disjointness plus total price within budget),
and among examined feasible triples of equal score its total price is
minimal. -/
theorem claim_C2 (combos_b combos_l combos_d : List Combo) (intake : ℕ) (budget : ℤ)
    (weight_kg : ℚ) (best : Plan)
    (hdpos : ∀ c ∈ combos_d, 0 ≤ c.price)
    (h : (optimize_day_fixed_score_no_overlap combos_b combos_l combos_d intake budget
        weight_kg).1 = some best)
    (cb cl cd : Combo)
    (hcb : cb ∈ top_candidates_by_target combos_b ((tri_targets intake).1 : ℤ) 60)
    (hcl : cl ∈ top_candidates_by_target combos_l ((tri_targets intake).2.1 : ℤ) 60)
    (hcd : cd ∈ top_candidates_by_target
        (top_candidates_by_target combos_d ((tri_targets intake).2.2 : ℤ) 60)
        ((intake : ℤ) - (cb.kcal + cl.kcal)) 60)
    (hd1 : Disjoint (combo_names cb) (combo_names cl))
    (hd2 : Disjoint (combo_names cb) (combo_names cd))
    (hd3 : Disjoint (combo_names cl) (combo_names cd))
    (hb : cb.price + cl.price + cd.price ≤ budget) :
    score_of intake weight_kg best ≤ score_of intake weight_kg (mkPlan cb cl cd) ∧
      (score_of intake weight_kg best = score_of intake weight_kg (mkPlan cb cl cd) →
        best.price_total ≤ (mkPlan cb cl cd).price_total) := by
  rcases optimize_cases combos_b combos_l combos_d intake budget weight_kg with
    ⟨heq, _⟩ | ⟨b, heq, _, hall⟩
  · rw [heq] at h
    exact absurd h (by simp)
  · rw [heq] at h
    obtain rfl : b = best := Option.some.inj h
    have hcd_price : 0 ≤ cd.price :=
      hdpos cd (top_candidates_subset (top_candidates_subset hcd))
    have hmem : mkPlan cb cl cd ∈ opt_examined combos_b combos_l combos_d intake budget := by
      refine mem_examined_iff.2 ⟨cb, hcb, cl, hcl, cd, hcd, ?_, ?_, ?_, hb, rfl⟩
      · exact Finset.disjoint_iff_inter_eq_empty.1 hd1
      · linarith
      · rw [Finset.union_inter_distrib_right, Finset.disjoint_iff_inter_eq_empty.1 hd2,
          Finset.disjoint_iff_inter_eq_empty.1 hd3, Finset.union_empty]
    rcases hall (mkPlan cb cl cd) hmem with hlt | ⟨heq2, hle⟩
    · exact ⟨le_of_lt hlt, fun hEq => absurd hEq (ne_of_lt hlt)⟩
    · exact ⟨le_of_eq heq2, fun _ => hle⟩

theorem claim_C2_witness :
    score_of 700 0 (mkPlan comboX comboY comboZ) ≤
        score_of 700 0 (mkPlan comboX comboY comboZ) ∧
      (score_of 700 0 (mkPlan comboX comboY comboZ) =
          score_of 700 0 (mkPlan comboX comboY comboZ) →
        (mkPlan comboX comboY comboZ).price_total ≤
          (mkPlan comboX comboY comboZ).price_total) :=
  claim_C2 [comboX] [comboY] [comboZ] 700 500 0 (mkPlan comboX comboY comboZ)
    (by decide) rfl comboX comboY comboZ (by decide) (by decide) (by decide)
    (by decide) (by decide) (by decide) (by decide)

/-- C10: the optimizer always returns a `(best, best_score)` pair in which
`best` is `None` exactly when `best_score` is the `float("inf")` sentinel,
and whenever `best` is a plan, `best_score` is `plan_score` of that plan
at the default weights and the intake-derived macro targets. -/
theorem claim_C10 (combos_b combos_l combos_d : List Combo) (intake : ℕ) (budget : ℤ)
    (weight_kg : ℚ) :
    ((optimize_day_fixed_score_no_overlap combos_b combos_l combos_d intake budget
          weight_kg).1 = none ↔
        (optimize_day_fixed_score_no_overlap combos_b combos_l combos_d intake budget
          weight_kg).2 = ⊤) ∧
      ∀ p, (optimize_day_fixed_score_no_overlap combos_b combos_l combos_d intake budget
            weight_kg).1 = some p →
        (optimize_day_fixed_score_no_overlap combos_b combos_l combos_d intake budget
            weight_kg).2 =
          (plan_score_default p (intake : ℤ)
              (target_pfc_grams (intake : ℚ) weight_kg (8/5) (1/4)).1
              (target_pfc_grams (intake : ℚ) weight_kg (8/5) (1/4)).2.1
              (target_pfc_grams (intake : ℚ) weight_kg (8/5) (1/4)).2.2 : ℚ) := by
  rcases optimize_cases combos_b combos_l combos_d intake budget weight_kg with
    ⟨heq, _⟩ | ⟨b, heq, _, _⟩
  · rw [heq]
    exact ⟨by simp, fun p hp => absurd hp (by simp)⟩
  · rw [heq]
    refine ⟨by simp, fun p hp => ?_⟩
    obtain rfl : b = p := Option.some.inj hp
    rfl

theorem claim_C10_witness :
    (optimize_day_fixed_score_no_overlap [comboX] [comboY] [comboZ] 700 500 0).2 =
      (plan_score_default (mkPlan comboX comboY comboZ) ((700 : ℕ) : ℤ)
          (target_pfc_grams ((700 : ℕ) : ℚ) 0 (8/5) (1/4)).1
          (target_pfc_grams ((700 : ℕ) : ℚ) 0 (8/5) (1/4)).2.1
          (target_pfc_grams ((700 : ℕ) : ℚ) 0 (8/5) (1/4)).2.2 : ℚ) :=
  (claim_C10 [comboX] [comboY] [comboZ] 700 500 0).2 (mkPlan comboX comboY comboZ) rfl

/-- C7: with a catalog of exactly the two items A(200 kcal, 100 yen) and
B(300 kcal, 150 yen) in every slot, single-item bundles
(`max_items = 1`), `intake = 700` and `daily_budget = 500`, the optimizer
finds no feasible plan: three pairwise name-disjoint picks cannot be made
from two names, so it returns the `(None, inf)` no-feasible-plan result
(for any macro values of the two items and any body weight). -/
theorem claim_C7 (pA fA cA fiA pB fB cB fiB weight_kg : ℚ) :
    optimize_day_fixed_score_no_overlap
        (generate_item_combos [⟨"A", 200, 100, pA, fA, cA, fiA⟩,
          ⟨"B", 300, 150, pB, fB, cB, fiB⟩] 500 1)
        (generate_item_combos [⟨"A", 200, 100, pA, fA, cA, fiA⟩,
          ⟨"B", 300, 150, pB, fB, cB, fiB⟩] 500 1)
        (generate_item_combos [⟨"A", 200, 100, pA, fA, cA, fiA⟩,
          ⟨"B", 300, 150, pB, fB, cB, fiB⟩] 500 1)
        700 500 weight_kg = (none, ⊤) := rfl

/-- C8 counterexample: the optimizer performs no configuration
validation. Called with the malformed budget `-1` it does not report any
distinct configuration-error result — its return type has no such
variant — but runs its search and returns the ordinary
no-feasible-plan value `(None, inf)`, exactly as for a well-formed but
infeasible input. -/
theorem claim_C8_counterexample :
    optimize_day_fixed_score_no_overlap [comboX] [comboY] [comboZ] 700 (-1) 0 =
      (none, ⊤) := rfl

/-- C8 amended: the optimizer never rejects malformed configuration up
front; a negative daily budget flows into the search (slot fractions are
hard-coded 20/40/40 and cannot be malformed), every candidate pair is
then rejected by the budget test, and the ordinary no-feasible-plan
result `(None, inf)` is returned instead of a typed configuration
error. -/
theorem claim_C8_amended (combos_b combos_l combos_d : List Combo) (intake : ℕ)
    (budget : ℤ) (weight_kg : ℚ) (hneg : budget < 0)
    (hb : ∀ c ∈ combos_b, 0 ≤ c.price) (hl : ∀ c ∈ combos_l, 0 ≤ c.price) :
    optimize_day_fixed_score_no_overlap combos_b combos_l combos_d intake budget weight_kg
      = (none, ⊤) := by
  rcases optimize_cases combos_b combos_l combos_d intake budget weight_kg with
    ⟨heq, _⟩ | ⟨b, heq, hmem, _⟩
  · exact heq
  · exfalso
    obtain ⟨cb, hcb, cl, hcl, cd, hcd, h1, h2, h3, h4, rfl⟩ := mem_examined_iff.1 hmem
    have hcb' := hb cb (top_candidates_subset hcb)
    have hcl' := hl cl (top_candidates_subset hcl)
    linarith

theorem claim_C8_amended_witness :
    ((-2 : ℤ) < 0) ∧
      optimize_day_fixed_score_no_overlap [comboX] [comboY] [comboZ] 600 (-2) 1 =
        (none, ⊤) :=
  ⟨by decide,
    claim_C8_amended [comboX] [comboY] [comboZ] 600 (-2) 1 (by decide) (by decide)
      (by decide)⟩
